import Mathlib

/-!
# Verification of the office-automation task subsystem

Shallow embedding of the repository's task lifecycle code:

* `models/task_model.py` — the `Task` dataclass and its dict round-trip;
* `contexts/task_context.py` — the SQLite-backed task repository
  (`create_task`, `get_task_by_id`, `get_all_tasks`, `update_task`,
  `get_tasks_by_status`, `get_tasks_by_category`);
* `controllers/task_controller.py` — the `run_task` dispatcher;
* `contexts/project_context.py` — project membership bookkeeping;
* `services/pdf_service.py` — `merge_pdfs` input validation;
* `services/llm_service.py` + `services/semantic_api_client.py` —
  `chat_with_project` and its semantic-context fallback.

Modelling conventions:

* `datetime` values are abstracted as naturals (`DateTime`); Python's
  `datetime.isoformat` / `datetime.fromisoformat` round-trip exactly, so the
  serialize-to-TEXT / parse-back pair on timestamp columns is the identity on
  this abstraction.
* A JSON-typed TEXT column is `Column α`: either SQL `NULL` / the empty string
  (falsy in Python, `Column.absent`), or text that `json.loads` rejects
  (`Column.malformed`), or the `json.dumps` image of a value
  (`Column.val`).  Python's `json` codec round-trips the mappings/lists the
  repository stores, so `loads (dumps a) = a` is built into the model; the
  repository code's branching depends only on which of the three cases the
  stored text falls in.
* External I/O (SMTP, IMAP, the filesystem, HTTP) is supplied by oracle
  values describing the outcome of each call; exceptions are `Except.error`
  with the Python exception's `str`.
-/

namespace OfficeAuto

/-- Timestamps: `datetime` abstracted as a natural number. -/
abbrev DateTime := Nat

/-- Task `parameters`: a string-keyed mapping (form-supplied values are
strings), kept as an association list. -/
abbrev Params := List (String × String)

/-- A handler outcome envelope: a Python dict whose `status` / `message` keys
may each be absent (`dict.get` returns `None` then); any further
operation-specific fields are kept opaque as string pairs. -/
structure Envelope where
  statusF : Option String := none
  messageF : Option String := none
  extra : List (String × String) := []
deriving DecidableEq, Repr

/-- The empty dict `{}` (the `Task.result` default). -/
def Envelope.empty : Envelope := {}

/-- Embeds `models/task_model.py` — the `Task` dataclass.  `created_at` is optional
here because `Task.from_dict` sets it to `None` when the stored text is absent
or unparsable. -/
structure Task where
  id : Option Nat := none
  name : String := ""
  type : String := ""
  category : String := ""
  status : String := "pending"
  priority : Int := 1
  description : String := ""
  created_at : Option DateTime := none
  updated_at : Option DateTime := none
  scheduled_for : Option DateTime := none
  completed_at : Option DateTime := none
  created_by : Option Int := none
  parameters : Params := []
  result : Envelope := {}
  error : Option String := none
  is_recurring : Bool := false
  recurrence_pattern : Option String := none
  tags : List String := []
deriving DecidableEq, Repr

/-- One JSON-typed TEXT column of the `tasks` table, abstracted by how Python
treats the stored text: `absent` is SQL NULL or `""` (falsy under
`task_dict.get(field)`), `malformed` is non-empty text rejected by
`json.loads`, `val a` is `json.dumps a`. -/
inductive Column (α : Type) where
  | absent : Column α
  | malformed (text : String) : Column α
  | val (a : α) : Column α
deriving DecidableEq, Repr

/-- Python truthiness of the stored text: NULL/`""` is falsy, any other text
(including `"{}"`) is truthy. -/
def Column.truthy {α : Type} : Column α → Bool
  | .absent => false
  | .malformed _ => true
  | .val _ => true

/-- The model's stand-in for the message of the `json.JSONDecodeError`
raised by `json.loads` on malformed text. -/
def jsonDecodeError : String := "Expecting value: line 1 column 1 (char 0)"

/-- The deserialization used by `get_all_tasks` / `get_task_by_id`
(task_context.py lines 78–85 / 107–114): falsy column → default, and a
`try/except` swallows `json.loads` failures into the same default. -/
def decodeSwallow {α : Type} (c : Column α) (dflt : α) : α :=
  match c with
  | .absent => dflt
  | .malformed _ => dflt
  | .val a => a

/-- The deserialization used by `get_tasks_by_status` /
`get_tasks_by_category` (task_context.py lines 221–225 / 245–249): falsy
column → default, but `json.loads` is called with NO try/except, so malformed
text raises. -/
def decodeRaise {α : Type} (c : Column α) (dflt : α) : Except String α :=
  match c with
  | .absent => .ok dflt
  | .malformed _ => .error jsonDecodeError
  | .val a => .ok a

/-- One row of the `tasks` table. -/
structure TaskRow where
  id : Nat
  name : String := ""
  type : String := ""
  category : String := ""
  status : String := "pending"
  priority : Int := 1
  description : String := ""
  created_at : Option DateTime := none
  updated_at : Option DateTime := none
  scheduled_for : Option DateTime := none
  completed_at : Option DateTime := none
  created_by : Option Int := none
  parameters : Column Params := .absent
  result : Column Envelope := .absent
  error : Option String := none
  is_recurring : Bool := false
  recurrence_pattern : Option String := none
  tags : Column (List String) := .absent
deriving DecidableEq, Repr

/-- The `tasks` table plus its AUTOINCREMENT counter. -/
structure TaskStore where
  rows : List TaskRow := []
  nextId : Nat := 1
deriving DecidableEq, Repr

/-- Row → `Task`, with the parse-error-swallowing deserialization
(`get_all_tasks` / `get_task_by_id`): `{}` for `parameters`/`result`, `[]`
for `tags`. -/
def rowToTask (r : TaskRow) : Task :=
  { id := some r.id
    name := r.name
    type := r.type
    category := r.category
    status := r.status
    priority := r.priority
    description := r.description
    created_at := r.created_at
    updated_at := r.updated_at
    scheduled_for := r.scheduled_for
    completed_at := r.completed_at
    created_by := r.created_by
    parameters := decodeSwallow r.parameters []
    result := decodeSwallow r.result Envelope.empty
    error := r.error
    is_recurring := r.is_recurring
    recurrence_pattern := r.recurrence_pattern
    tags := decodeSwallow r.tags [] }

/-- Row → `Task` with the raising deserialization
(`get_tasks_by_status` / `get_tasks_by_category`). -/
def rowToTaskStrict (r : TaskRow) : Except String Task := do
  let ps ← decodeRaise r.parameters []
  let res ← decodeRaise r.result Envelope.empty
  let tg ← decodeRaise r.tags []
  pure { rowToTask r with parameters := ps, result := res, tags := tg }

namespace TaskContext

/-- Embeds `TaskContext.get_task_by_id`: SELECT by id, deserialize swallowing parse
errors.  (Result ordering of list queries is irrelevant to the verified
claims, so `ORDER BY created_at DESC` is not modelled; lists keep row
order.) -/
def get_task_by_id (s : TaskStore) (task_id : Nat) : Option Task :=
  (s.rows.find? (fun r => r.id = task_id)).map rowToTask

/-- Embeds `TaskContext.get_all_tasks`: every row, deserialized with the swallowing
decoder. -/
def get_all_tasks (s : TaskStore) : List Task :=
  s.rows.map rowToTask

/-- Embeds `TaskContext.get_tasks_by_status`: rows filtered by status, deserialized
with the raising decoder — the first malformed JSON column aborts the whole
call with the decode exception. -/
def get_tasks_by_status (s : TaskStore) (status : String) :
    Except String (List Task) :=
  (s.rows.filter (fun r => r.status = status)).mapM rowToTaskStrict

/-- Embeds `TaskContext.get_tasks_by_category`: same shape as
`get_tasks_by_status`. -/
def get_tasks_by_category (s : TaskStore) (category : String) :
    Except String (List Task) :=
  (s.rows.filter (fun r => r.category = category)).mapM rowToTaskStrict

/-- Serialization of a task to a fresh row (`create_task`'s INSERT): the
JSON fields are `json.dumps`-ed (an empty mapping/list dumps to `"{}"`/`"[]"`,
the same text the falsy branch writes, so both branches store
`Column.val`). -/
def taskToRow (t : Task) (rid : Nat) : TaskRow :=
  { id := rid
    name := t.name
    type := t.type
    category := t.category
    status := t.status
    priority := t.priority
    description := t.description
    created_at := t.created_at
    updated_at := t.updated_at
    scheduled_for := t.scheduled_for
    completed_at := t.completed_at
    created_by := t.created_by
    parameters := .val t.parameters
    result := .val t.result
    error := t.error
    is_recurring := t.is_recurring
    recurrence_pattern := t.recurrence_pattern
    tags := .val t.tags }

/-- Embeds `TaskContext.create_task`: INSERT with the next AUTOINCREMENT id, then
re-read the created row via `get_task_by_id`. -/
def create_task (s : TaskStore) (t : Task) : Option Task × TaskStore :=
  let row := taskToRow t s.nextId
  let s' : TaskStore := { rows := s.rows ++ [row], nextId := s.nextId + 1 }
  (get_task_by_id s' s.nextId, s')

/-- Python falsiness of `task.id`: the guard `if not task.id` fires on
`None` AND on the integer `0`. -/
def pyFalsyId : Option Nat → Bool
  | none => true
  | some n => n == 0

/-- The `ValueError` message raised by `update_task`'s precondition check. -/
def updateIdError : String := "Task ID is required for update operation"

/-- The UPDATE statement of `update_task`: sets every column except `id`,
`created_at` and `created_by` (those are omitted from the SET list). -/
def applyUpdate (t : Task) (r : TaskRow) : TaskRow :=
  { r with
    name := t.name
    type := t.type
    category := t.category
    status := t.status
    priority := t.priority
    description := t.description
    updated_at := t.updated_at
    scheduled_for := t.scheduled_for
    completed_at := t.completed_at
    parameters := .val t.parameters
    result := .val t.result
    error := t.error
    is_recurring := t.is_recurring
    recurrence_pattern := t.recurrence_pattern
    tags := .val t.tags }

/-- The store after `update_task`'s UPDATE: every row whose id matches gets
the new column values. -/
def updatedStore (t' : Task) (tid : Nat) (s : TaskStore) : TaskStore :=
  { s with rows := s.rows.map (fun r => if r.id = tid then applyUpdate t' r else r) }

/-- Embeds `TaskContext.update_task`: raise `ValueError` when `not task.id` (before
touching the store, so the store is unchanged on this failure), else set
`task.updated_at = now`, UPDATE the matching row, and re-read it (`None` if
no row matched). -/
def update_task (now : DateTime) (s : TaskStore) (t : Task) :
    Except String (Option Task × TaskStore) :=
  if pyFalsyId t.id then
    .error updateIdError
  else
    let tid := t.id.getD 0
    let t' : Task := { t with updated_at := some now }
    let s' : TaskStore := updatedStore t' tid s
    .ok (get_task_by_id s' tid, s')

end TaskContext

/-! ## The dispatcher (`controllers/task_controller.py`, `run_task`) -/

/-- Oracle for the outcome of each concrete service call the dispatcher can
make.  A `.ok` value is what the handler returned; a `.error e` value is an
exception with text `e` escaping the handler (or the parameter-extraction
code around it).  Every handler returns a dict envelope except
`EmailService.check_inbox`, which returns a raw Python LIST of per-message
dicts (email_service.py lines 99–228: both on fetch success and on caught
IMAP errors the function returns a list). -/
structure HandlerOracle where
  send_email : Except String Envelope
  check_inbox : Except String (List Envelope)
  convert_excel_to_csv : Except String Envelope
  rename_files : Except String Envelope
  organize_files : Except String Envelope
  merge_pdfs : Except String Envelope
  extract_text : Except String Envelope
  create_pdf : Except String Envelope

/-- The Python value held by the dispatcher's `result` variable after the
category/type switch. -/
inductive PyResult where
  | pyNone : PyResult
  | pyDict (e : Envelope) : PyResult
  | pyList (xs : List Envelope) : PyResult
deriving DecidableEq, Repr

/-- The category/type switch of `run_task` (task_controller.py lines
103–186): each matched branch calls one service method; an unmatched pair
leaves `result = None`. -/
def dispatchHandler (cat ty : String) (h : HandlerOracle) :
    Except String PyResult :=
  if cat = "email" then
    if ty = "send_email" then h.send_email.map .pyDict
    else if ty = "check_inbox" then h.check_inbox.map .pyList
    else .ok .pyNone
  else if cat = "file" then
    if ty = "convert_excel_to_csv" then h.convert_excel_to_csv.map .pyDict
    else if ty = "rename_files" then h.rename_files.map .pyDict
    else if ty = "organize_files" then h.organize_files.map .pyDict
    else .ok .pyNone
  else if cat = "pdf" then
    if ty = "merge_pdfs" then h.merge_pdfs.map .pyDict
    else if ty = "extract_text" then h.extract_text.map .pyDict
    else if ty = "create_pdf" then h.create_pdf.map .pyDict
    else .ok .pyNone
  else .ok .pyNone

/-- Whether `(category, type)` names one of the eight operation handlers. -/
def hasHandler (cat ty : String) : Bool :=
  (cat = "email" && (ty = "send_email" || ty = "check_inbox")) ||
  (cat = "file" && (ty = "convert_excel_to_csv" || ty = "rename_files" ||
      ty = "organize_files")) ||
  (cat = "pdf" && (ty = "merge_pdfs" || ty = "extract_text" ||
      ty = "create_pdf"))

/-- The dispatcher's default envelope when no handler produced a result
(task_controller.py line 190). -/
def defaultEnvelope : Envelope :=
  { statusF := some "success"
    messageF := some "Úloha byla dokončena, ale nevrátila žádný výsledek."
    extra := [] }

/-- The `str` of the `AttributeError` raised by `result.get('status')` when
`result` is a list. -/
def listGetAttrError : String := "'list' object has no attribute 'get'"

/-- Lines 189–193 of task_controller.py: substitute the default envelope for
`None`, then call `result.get('status')` — which raises `AttributeError`
when `result` is a raw list. -/
def normalizeResult : PyResult → Except String Envelope
  | .pyNone => .ok defaultEnvelope
  | .pyDict e => .ok e
  | .pyList _ => .error listGetAttrError

/-- Wraps `update_task` with an injected persistence failure: `fail = some e`
models the DB call raising `e` after the precondition check, with the store
left unchanged (the repository is side-effect-free on failure). -/
def updateWithFail (now : DateTime) (s : TaskStore) (t : Task)
    (fail : Option String) : Except String (Option Task × TaskStore) :=
  match TaskContext.update_task now s t with
  | .error e => .error e
  | .ok r =>
    match fail with
    | some e => .error e
    | none => .ok r

/-- The HTTP response `run_task` produces. -/
inductive RunResponse where
  /-- The 404 case: `get_task_by_id` returned `None`. -/
  | notFound : RunResponse
  /-- A 500: persisting `status = running` raised (line 97). -/
  | updateFailed (msg : String) : RunResponse
  /-- The 200 case: success JSON carrying the updated task's dict (line 201). -/
  | ok (task : Task) : RunResponse
  /-- A 500: the except path, persist succeeded (line 218). -/
  | execFailed (msg : String) : RunResponse
  /-- A 500: the except path, persist ALSO raised (lines 213–216). -/
  | execAndPersistFailed (execMsg persistMsg : String) : RunResponse
deriving DecidableEq, Repr

/-- The `message` field of the JSON body `run_task` returns for each error
response, exactly as the controller formats it. -/
def RunResponse.message : RunResponse → Option String
  | .notFound => some "Úloha nebyla nalezena"
  | .updateFailed e => some ("Chyba při aktualizaci úlohy: " ++ e)
  | .ok _ => none
  | .execFailed e => some e
  | .execAndPersistFailed e u =>
      some ("Chyba při provádění úlohy: " ++ e ++
        ". Chyba při aktualizaci úlohy: " ++ u)

/-- The `except Exception` block of `run_task` (lines 203–218), entered with
the task object in its state `cur` at the moment the exception `e` was
raised: force `failed`/`error`/`completed_at`, attempt to persist; if that
persist raises too, answer with both messages.  (The second `except` block at
lines 220–227 is dead code — the first one already catches `Exception`.) -/
def exceptPath (now : DateTime) (store1 : TaskStore) (cur : Task) (e : String)
    (pfExcept : Option String) : RunResponse × TaskStore :=
  let taskF : Task :=
    { cur with status := "failed", error := some e, completed_at := some now }
  match updateWithFail now store1 taskF pfExcept with
  | .error u => (.execAndPersistFailed e u, store1)
  | .ok (_, store2) => (.execFailed e, store2)

/-- The body of `run_task`'s `try` block after the handler switch (lines
188–201), given the dispatch outcome `dres`.  Note the final
`task_context.update_task` (line 199) sits INSIDE the `try`, so its failure
is caught by the same except block; likewise `updated_task.to_dict()` raises
if the UPDATE matched no row and `update_task` returned `None`. -/
def finishRun (now : DateTime) (store1 : TaskStore) (task1 : Task)
    (dres : Except String PyResult) (pfNormal pfExcept : Option String) :
    RunResponse × TaskStore :=
  match dres with
  | .error e => exceptPath now store1 task1 e pfExcept
  | .ok r =>
    match normalizeResult r with
    | .error e => exceptPath now store1 task1 e pfExcept
    | .ok env =>
      let task2 : Task :=
        { task1 with
          status := if env.statusF = some "success" then "completed" else "failed"
          result := env
          completed_at := some now
          error := if env.statusF = some "error" then env.messageF else none }
      match updateWithFail now store1 task2 pfNormal with
      | .error e => exceptPath now store1 task2 e pfExcept
      | .ok (updated?, store2) =>
        match updated? with
        | some updated => (.ok updated, store2)
        | none =>
            exceptPath now store2 task2
              "'NoneType' object has no attribute 'to_dict'" pfExcept

/-- Embeds `run_task` (task_controller.py lines 85–227): load the task, persist
`status = running` (aborting with a 500 on failure), run the handler switch,
and map the outcome onto the task's terminal state.  `pfRun` / `pfNormal` /
`pfExcept` inject persistence failures into the three `update_task` call
sites (set-running, normal-path final persist, except-path persist). -/
def run_task (now : DateTime) (s : TaskStore) (task_id : Nat)
    (h : HandlerOracle) (pfRun pfNormal pfExcept : Option String) :
    RunResponse × TaskStore :=
  match TaskContext.get_task_by_id s task_id with
  | none => (.notFound, s)
  | some task0 =>
    let task1 : Task := { task0 with status := "running" }
    match updateWithFail now s task1 pfRun with
    | .error e => (.updateFailed e, s)
    | .ok (_, store1) =>
      finishRun now store1 task1 (dispatchHandler task1.category task1.type h)
        pfNormal pfExcept

/-! ## Project membership (`contexts/project_context.py`) -/

/-- Embeds `models/project_model.py` — the fields the membership operations
touch. -/
structure Project where
  id : Option Nat := none
  name : String := ""
  description : String := ""
  created_at : Option DateTime := none
  updated_at : Option DateTime := none
  created_by : Option Int := none
  icon : Option String := none
  tags : List String := []
  metadata : List (String × String) := []
  tasks : List Nat := []
  documents : List Nat := []
  context_id : Option String := none
deriving DecidableEq, Repr

/-- One row of the `projects` table. -/
structure ProjectRow where
  id : Nat
  name : String := ""
  description : String := ""
  created_at : Option DateTime := none
  updated_at : Option DateTime := none
  created_by : Option Int := none
  icon : Option String := none
  tags : Column (List String) := .absent
  metadata : Column (List (String × String)) := .absent
  tasks : Column (List Nat) := .absent
  documents : Column (List Nat) := .absent
  context_id : Option String := none
deriving DecidableEq, Repr

/-- The `projects` table plus its AUTOINCREMENT counter. -/
structure ProjectStore where
  rows : List ProjectRow := []
  nextId : Nat := 1
deriving DecidableEq, Repr

/-- Row → `Project` with the swallowing deserialization (project_context.py
lines 101–108 wrap `json.loads` in try/except): `[]` for
`tags`/`tasks`/`documents`, `{}` for `metadata`. -/
def rowToProject (r : ProjectRow) : Project :=
  { id := some r.id
    name := r.name
    description := r.description
    created_at := r.created_at
    updated_at := r.updated_at
    created_by := r.created_by
    icon := r.icon
    tags := decodeSwallow r.tags []
    metadata := decodeSwallow r.metadata []
    tasks := decodeSwallow r.tasks []
    documents := decodeSwallow r.documents []
    context_id := r.context_id }

namespace ProjectContext

/-- Embeds `ProjectContext.get_project_by_id`. -/
def get_project_by_id (s : ProjectStore) (project_id : Nat) : Option Project :=
  (s.rows.find? (fun r => r.id = project_id)).map rowToProject

/-- The UPDATE statement of `update_project`: sets every column except `id`
and `created_at`. -/
def applyProjectUpdate (p : Project) (r : ProjectRow) : ProjectRow :=
  { r with
    name := p.name
    description := p.description
    updated_at := p.updated_at
    created_by := p.created_by
    icon := p.icon
    tags := .val p.tags
    metadata := .val p.metadata
    tasks := .val p.tasks
    documents := .val p.documents
    context_id := p.context_id }

/-- The store after `update_project`'s UPDATE. -/
def updatedProjectStore (p' : Project) (pid : Nat) (s : ProjectStore) :
    ProjectStore :=
  { s with
    rows := s.rows.map (fun r => if r.id = pid then applyProjectUpdate p' r else r) }

/-- Embeds `ProjectContext.update_project`: `ValueError` on falsy id, else refresh
`updated_at`, UPDATE, re-read. -/
def update_project (now : DateTime) (s : ProjectStore) (p : Project) :
    Except String (Option Project × ProjectStore) :=
  if TaskContext.pyFalsyId p.id then
    .error "Project ID is required for update operation"
  else
    let pid := p.id.getD 0
    let p' : Project := { p with updated_at := some now }
    let s' : ProjectStore := updatedProjectStore p' pid s
    .ok (get_project_by_id s' pid, s')

/-- Embeds `ProjectContext.add_task_to_project` (lines 200–211): load the project
(`False` when absent), append the task id iff not already a member and
persist (`True`), else `False` without touching the store.  An exception
from `update_project` propagates (`Except.error`). -/
def add_task_to_project (now : DateTime) (s : ProjectStore)
    (project_id task_id : Nat) : Except String (Bool × ProjectStore) :=
  match get_project_by_id s project_id with
  | none => .ok (false, s)
  | some proj =>
    if task_id ∈ proj.tasks then
      .ok (false, s)
    else
      let proj' : Project := { proj with tasks := proj.tasks ++ [task_id] }
      match update_project now s proj' with
      | .error e => .error e
      | .ok (_, s') => .ok (true, s')

/-- A sequence of `add_task_to_project` calls; a propagating exception aborts
the remainder of the sequence. -/
def applyAdds (now : DateTime) : List (Nat × Nat) → ProjectStore → ProjectStore
  | [], s => s
  | (pid, tid) :: rest, s =>
    match add_task_to_project now s pid tid with
    | .error _ => s
    | .ok (_, s') => applyAdds now rest s'

/-- Every project row's decoded task-id list is duplicate-free. -/
def TaskListsNodup (s : ProjectStore) : Prop :=
  ∀ r ∈ s.rows, (decodeSwallow r.tasks ([] : List Nat)).Nodup

end ProjectContext

/-! ## `services/pdf_service.py` — `merge_pdfs` -/

namespace PdfService

/-- The filesystem as the PDF code observes it: which paths exist, and how
many pages the PDF at a path has (only consulted for existing inputs; the
`PdfMerger` write and re-read are assumed to succeed — the verified claim
concerns the validation that runs before any write). -/
structure FileSys where
  existing : List String
  pages : String → Nat

/-- Embeds `pdf_file.lower().endswith('.pdf')`, modelled over the character list
(ASCII lowercasing, which covers the `.pdf`/`.PDF` cases the check is
about). -/
def endsWithPdfLower (p : String) : Bool :=
  ['.', 'p', 'd', 'f'].isSuffixOf (p.data.map Char.toLower)

/-- The validation loop at pdf_service.py lines 36–48: for each input path in
order, first the existence check, then the extension check; the first failure
yields the error message naming that path. -/
def firstBadInput (fs : FileSys) : List String → Option (String × String)
  | [] => none
  | p :: rest =>
    if ¬ fs.existing.contains p then
      some (p, "Soubor " ++ p ++ " neexistuje")
    else if ¬ endsWithPdfLower p then
      some (p, "Soubor " ++ p ++ " není PDF")
    else firstBadInput fs rest

/-- The envelope `merge_pdfs` returns (`file_size` is left opaque). -/
structure MergeOutcome where
  status : String
  message : String
  output_path : Option String := none
  page_count : Option Nat := none
  timestamp : DateTime
deriving DecidableEq, Repr

/-- Embeds `PdfService.merge_pdfs` (lines 23–77): validate every input before
creating the merger; on the first bad input return the error envelope with
the filesystem untouched; otherwise concatenate in order, write the output,
and report its page count. -/
def merge_pdfs (fs : FileSys) (pdf_files : List String) (output_path : String)
    (now : DateTime) : MergeOutcome × FileSys :=
  match firstBadInput fs pdf_files with
  | some (_, msg) =>
      ({ status := "error", message := msg, timestamp := now }, fs)
  | none =>
    let total := (pdf_files.map fs.pages).sum
    let fs' : FileSys :=
      { existing :=
          if fs.existing.contains output_path then fs.existing
          else fs.existing ++ [output_path]
        pages := fun q => if q = output_path then total else fs.pages q }
    ({ status := "success"
       message := "PDF soubory byly úspěšně sloučeny"
       output_path := some output_path
       page_count := some total
       timestamp := now }, fs')

end PdfService

/-! ## `services/llm_service.py` + `services/semantic_api_client.py` -/

namespace LLM

/-- The `annotation` sub-dict a context chunk may carry. -/
structure ChunkAnnot where
  main_topic : Option String := none
  categories : List String := []
deriving DecidableEq, Repr

/-- One semantic-context chunk. -/
structure Chunk where
  text : String := ""
  importance_score : Int := 0
  annot : Option ChunkAnnot := none
deriving DecidableEq, Repr

/-- The JSON body `get_project_context` hands to the chat code: `status` /
`message` keys may be absent (`dict.get` → `None`), `chunks` defaults to
`[]`; the `project_id` / `chunk_count` fields are never read by the chat
path and are omitted. -/
structure ContextJson where
  statusF : Option String := none
  messageF : Option String := none
  chunks : List Chunk := []
deriving DecidableEq, Repr

/-- Outcome of the semantic service HTTP exchange. -/
inductive FetchOutcome where
  | unreachable : FetchOutcome
  | httpError (e : String) : FetchOutcome
  | okJson (j : ContextJson) : FetchOutcome
deriving DecidableEq, Repr

/-- Embeds `SemanticApiClient.get_project_context` (semantic_api_client.py lines
164–205): when the health probe fails, or the GET raises
`requests.RequestException` (which `raise_for_status` turns HTTP error
statuses into), return the fallback dict `{project_id, chunk_count: 0,
chunks: []}` — a dict WITHOUT a `status` key; otherwise return the service's
JSON body. -/
def get_project_context : FetchOutcome → ContextJson
  | .unreachable => {}
  | .httpError _ => {}
  | .okJson j => j

/-- The `_prepare_context_from_chunks` placeholder for an empty chunk list. -/
def noContextForQuery : String :=
  "Pro tento dotaz nebyl nalezen žádný relevantní kontext."

/-- The placeholder substituted when the context result reports an error. -/
def noContextForProject : String :=
  "Pro tento projekt nebyl nalezen žádný relevantní kontext."

/-- Python truthiness of an optional string (`if annotation.get(...)`). -/
def strTruthy : Option String → Bool
  | none => false
  | some s => !s.isEmpty

/-- The metadata lines for one chunk (llm_service.py lines 177–185). -/
def chunkMeta (c : Chunk) : List String :=
  match c.annot with
  | none => []
  | some a =>
    (if strTruthy a.main_topic then ["Téma: " ++ a.main_topic.getD ""] else []) ++
    (if !a.categories.isEmpty then
        ["Kategorie: " ++ String.intercalate ", " a.categories] else [])

/-- Embeds `LLMService._prepare_context_from_chunks` (lines 157–194). -/
def prepareContextFromChunks (chunks : List Chunk) : String :=
  if chunks.isEmpty then noContextForQuery
  else
    String.intercalate "\n\n" <| chunks.enum.map fun ic =>
      let meta := chunkMeta ic.2
      "FRAGMENT " ++ toString (ic.1 + 1) ++ ":\n" ++
        (if !meta.isEmpty then "[" ++ String.intercalate ", " meta ++ "]\n" else "") ++
        ic.2.text ++ "\n"

/-- Embeds `LLMService._create_chat_prompt` (lines 196–216). -/
def createChatPrompt (question context : String) : String :=
  "Jsi asistent, který odpovídá na otázky na základě poskytnutého kontextu projektu.\n" ++
  "Tvým úkolem je poskytnout co nejlepší odpověď s využitím následujícího kontextu:\n\n" ++
  "===== KONTEXT PROJEKTU =====\n" ++ context ++ "\n===================\n\n" ++
  "OTÁZKA: " ++ question ++ "\n\nODPOVĚĎ:"

/-- The response dict `chat_with_project` returns. -/
structure ChatResponse where
  statusF : String
  messageF : String
  response : Option String := none
  context_chunks : Option Nat := none
  timestamp : DateTime
deriving DecidableEq, Repr

/-- Embeds `LLMService.chat_with_project` (lines 85–155).  `provider` is the
configured `default_provider`; `llm` is the oracle for
`_call_openai`/`_call_anthropic` (an `Except.error` is the exception those
re-raise).  Python scoping detail kept faithfully: the local `chunks` is
bound only in the non-error context branch, so building the success dict
after the error branch raises `NameError`, which the surrounding
`except Exception` turns into an error envelope. -/
def chat_with_project (provider : String) (llm : String → Except String String)
    (fetch : FetchOutcome) (message : String) (now : DateTime) : ChatResponse :=
  if provider = "none" then
    { statusF := "error"
      messageF := "LLM není nakonfigurováno. Nastavte API klíč v proměnných prostředí."
      timestamp := now }
  else
    let ctx := get_project_context fetch
    let isCtxError := ctx.statusF = some "error"
    let contextText :=
      if isCtxError then noContextForProject
      else prepareContextFromChunks ctx.chunks
    let chunksVar : Option (List Chunk) := if isCtxError then none else some ctx.chunks
    let prompt := createChatPrompt message contextText
    if provider = "openai" ∨ provider = "anthropic" then
      match llm prompt with
      | .error e =>
          { statusF := "error"
            messageF := "Chyba při generování odpovědi: " ++ e
            timestamp := now }
      | .ok responseText =>
        match chunksVar with
        | some cs =>
            { statusF := "success"
              messageF := "Odpověď byla úspěšně vygenerována"
              response := some responseText
              context_chunks := some cs.length
              timestamp := now }
        | none =>
            { statusF := "error"
              messageF :=
                "Chyba při generování odpovědi: name 'chunks' is not defined"
              timestamp := now }
    else
      { statusF := "error"
        messageF := "Nepodporovaný poskytovatel LLM: " ++ provider
        timestamp := now }

end LLM

/-! ## Property vocabulary and concrete fixtures -/

/-- The outcome-envelope contract of §4.2: `status ∈ {"success","error"}` and
`message` present — every dict-returning handler in the repository's services
builds its envelopes this way. -/
def EnvelopeWF (e : Envelope) : Prop :=
  (e.statusF = some "success" ∨ e.statusF = some "error") ∧ e.messageF ≠ none

/-- The handler oracle honours the envelope contract on every dict-returning
handler (`check_inbox` is exempt: it returns a raw list). -/
def HandlerOracle.WellFormed (h : HandlerOracle) : Prop :=
  (∀ e, h.send_email = .ok e → EnvelopeWF e) ∧
  (∀ e, h.convert_excel_to_csv = .ok e → EnvelopeWF e) ∧
  (∀ e, h.rename_files = .ok e → EnvelopeWF e) ∧
  (∀ e, h.organize_files = .ok e → EnvelopeWF e) ∧
  (∀ e, h.merge_pdfs = .ok e → EnvelopeWF e) ∧
  (∀ e, h.extract_text = .ok e → EnvelopeWF e) ∧
  (∀ e, h.create_pdf = .ok e → EnvelopeWF e)

/-- A concrete well-formed success envelope, for witnesses. -/
def envOkFix : Envelope :=
  { statusF := some "success", messageF := some "ok", extra := [] }

/-- A concrete handler oracle where every call succeeds, for witnesses. -/
def hOkFix : HandlerOracle :=
  { send_email := .ok envOkFix
    check_inbox := .ok []
    convert_excel_to_csv := .ok envOkFix
    rename_files := .ok envOkFix
    organize_files := .ok envOkFix
    merge_pdfs := .ok envOkFix
    extract_text := .ok envOkFix
    create_pdf := .ok envOkFix }

/-- A handler oracle whose `send_email` raises `"boom"`, for witnesses. -/
def hRaiseFix : HandlerOracle :=
  { hOkFix with send_email := .error "boom" }

/-- A concrete pending-task row with the given dispatch key, for witnesses. -/
def rowFix (cat ty : String) : TaskRow :=
  { id := 1, name := "t", type := ty, category := cat, status := "pending" }

/-- A one-row store holding `rowFix cat ty`, for witnesses. -/
def storeFix (cat ty : String) : TaskStore :=
  { rows := [rowFix cat ty], nextId := 2 }

/-- A concrete task with non-trivial JSON-valued fields, for witnesses. -/
def taskFix : Task :=
  { name := "a", type := "merge_pdfs", category := "pdf",
    parameters := [("k", "v")], result := envOkFix, error := some "e",
    tags := ["tg"], priority := 2, created_by := some 1,
    is_recurring := true, recurrence_pattern := some "daily" }

/-- Whether the stored column text is rejected by `json.loads`. -/
def Column.isMalformed {α : Type} : Column α → Bool
  | .malformed _ => true
  | _ => false

/-- A row whose `tags` column holds malformed JSON. -/
def badRow : TaskRow :=
  { id := 1, status := "pending", category := "file",
    tags := Column.malformed "not json" }

/-- A one-project store, for witnesses. -/
def projStoreFix : ProjectStore :=
  { rows := [{ id := 1, name := "p" }], nextId := 2 }

/-- A concrete filesystem holding one single-page PDF, for witnesses. -/
def fsFix : PdfService.FileSys := { existing := ["a.pdf"], pages := fun _ => 1 }

/-! ## Supporting lemmas -/

theorem find?_map_ite {α : Type} (idOf : α → Nat) (g : α → α)
    (hg : ∀ a, idOf (g a) = idOf a) (tid : Nat) :
    ∀ l : List α,
      (l.map (fun a => if idOf a = tid then g a else a)).find?
          (fun a => idOf a = tid)
        = (l.find? (fun a => idOf a = tid)).map
            (fun a => if idOf a = tid then g a else a)
  | [] => rfl
  | a :: l => by
    by_cases h : idOf a = tid
    · simp [List.find?, h, hg a]
    · simp [List.find?, h, find?_map_ite idOf g hg tid l]

theorem pyFalsyId_some {n : Nat} (h : n ≠ 0) :
    TaskContext.pyFalsyId (some n) = false := by
  simp [TaskContext.pyFalsyId, h]

theorem update_task_ok (now : DateTime) (s : TaskStore) (t : Task) (tid : Nat)
    (hid : t.id = some tid) (h0 : tid ≠ 0) :
    TaskContext.update_task now s t =
      .ok (TaskContext.get_task_by_id
             (TaskContext.updatedStore { t with updated_at := some now } tid s) tid,
           TaskContext.updatedStore { t with updated_at := some now } tid s) := by
  unfold TaskContext.update_task
  rw [hid]
  simp [TaskContext.pyFalsyId, h0]

theorem get_updatedStore_eq (t' : Task) (tid : Nat) (s : TaskStore)
    (r0 : TaskRow)
    (hfind : s.rows.find? (fun r => r.id = tid) = some r0) :
    (TaskContext.updatedStore t' tid s).rows.find? (fun r => r.id = tid)
        = some (TaskContext.applyUpdate t' r0) ∧
    TaskContext.get_task_by_id (TaskContext.updatedStore t' tid s) tid
        = some (rowToTask (TaskContext.applyUpdate t' r0)) := by
  have hid : r0.id = tid := by
    have h := List.find?_some hfind
    simpa using h
  have h1 := find?_map_ite (fun r : TaskRow => r.id)
    (TaskContext.applyUpdate t') (fun _ => rfl) tid s.rows
  rw [hfind] at h1
  have h2 : (TaskContext.updatedStore t' tid s).rows.find?
      (fun r => r.id = tid) = some (TaskContext.applyUpdate t' r0) := by
    simpa [TaskContext.updatedStore, hid] using h1
  exact ⟨h2, by simp [TaskContext.get_task_by_id, h2]⟩

theorem pyFalsyId_iff (o : Option Nat) :
    TaskContext.pyFalsyId o = true ↔ (o = none ∨ o = some 0) := by
  cases o with
  | none => simp [TaskContext.pyFalsyId]
  | some n => simp [TaskContext.pyFalsyId]

theorem get_task_by_id_append_fresh (s : TaskStore) (row : TaskRow) (n : Nat)
    (hfresh : ∀ r ∈ s.rows, r.id ≠ row.id) :
    TaskContext.get_task_by_id { rows := s.rows ++ [row], nextId := n } row.id
      = some (rowToTask row) := by
  have h1 : s.rows.find? (fun r => r.id = row.id) = none := by
    rw [List.find?_eq_none]
    intro x hx
    simpa using hfresh x hx
  unfold TaskContext.get_task_by_id
  rw [List.find?_append]
  simp [h1, List.find?]

/-! ## Claim C10 — `update_task` precondition -/

/-- C10 counterexample: a task whose id IS set — to the integer `0` — still
makes `update_task` raise the precondition `ValueError`, because the guard is
Python's `if not task.id`, which fires on the falsy `0` as well as on `None`.
The claim's "fails if and only if the id is unset" is therefore false. -/
theorem update_task_zero_id_counterexample :
    TaskContext.update_task 5 { rows := [], nextId := 1 } { id := some 0 } =
      Except.error TaskContext.updateIdError ∧
    ({ id := some 0 } : Task).id ≠ none := by
  refine ⟨?_, by simp⟩
  simp [TaskContext.update_task, TaskContext.pyFalsyId]

/-- C10 (amended): `update_task` fails with the precondition `ValueError` iff
`task.id` is `None` OR the integer `0` (Python falsiness); the store is
untouched on that failure (the raise precedes any DB access — in this pure
model an `Except.error` returns no store at all); and on a set non-zero id
the call succeeds, every stored row it touched carries
`updated_at = now`, and the refreshed row is re-read and returned. -/
theorem update_task_precondition (now : DateTime) (s : TaskStore) (t : Task) :
    ((∃ e, TaskContext.update_task now s t = Except.error e) ↔
      (t.id = none ∨ t.id = some 0)) ∧
    (∀ e, TaskContext.update_task now s t = Except.error e →
      e = TaskContext.updateIdError) ∧
    (∀ tid, t.id = some tid → tid ≠ 0 →
      TaskContext.update_task now s t =
        .ok (TaskContext.get_task_by_id
              (TaskContext.updatedStore { t with updated_at := some now } tid s) tid,
            TaskContext.updatedStore { t with updated_at := some now } tid s)) ∧
    (∀ tid, t.id = some tid → tid ≠ 0 →
      ∀ r ∈ (TaskContext.updatedStore { t with updated_at := some now } tid s).rows,
        r.id = tid → r.updated_at = some now) := by
  refine ⟨⟨?_, ?_⟩, ?_, ?_, ?_⟩
  · rintro ⟨e, he⟩
    by_cases h : TaskContext.pyFalsyId t.id
    · exact (pyFalsyId_iff t.id).mp h
    · simp [TaskContext.update_task, h] at he
  · intro h
    have hb : TaskContext.pyFalsyId t.id = true := (pyFalsyId_iff t.id).mpr h
    exact ⟨TaskContext.updateIdError, by simp [TaskContext.update_task, hb]⟩
  · intro e he
    by_cases h : TaskContext.pyFalsyId t.id
    · have := he
      simp [TaskContext.update_task, h] at this
      exact this.symm
    · simp [TaskContext.update_task, h] at he
  · intro tid hid h0
    exact update_task_ok now s t tid hid h0
  · intro tid hid h0 r hr hrid
    simp only [TaskContext.updatedStore, List.mem_map] at hr
    obtain ⟨orig, _, horig⟩ := hr
    by_cases h : orig.id = tid
    · rw [if_pos h] at horig
      rw [← horig]
      rfl
    · rw [if_neg h] at horig
      rw [← horig] at hrid
      exact absurd hrid h

/-- C10 amended witness: a concrete successful update stamps `updated_at`. -/
theorem update_task_precondition_witness :
    (TaskContext.applyUpdate
        ({ id := some 1, updated_at := some 9 } : Task)
        (rowFix "pdf" "merge_pdfs")).updated_at = some 9 := by
  have h := (update_task_precondition 9 (storeFix "pdf" "merge_pdfs")
      { id := some 1 }).2.2.2 1 rfl (by decide)
  exact h (TaskContext.applyUpdate
      { ({ id := some 1 } : Task) with updated_at := some 9 }
      (rowFix "pdf" "merge_pdfs"))
    (by simp [TaskContext.updatedStore, storeFix, rowFix]) rfl

/-! ## Claim C6 — create / get round-trip -/

/-- C6: creating a task and fetching it back by the assigned id preserves
every field except the repository-assigned id and timestamps — in
particular the JSON-serialized `parameters`, `result` and `tags` survive the
round-trip.  The hypothesis says the AUTOINCREMENT counter is fresh, which
SQLite guarantees. -/
theorem create_then_get_roundtrip (s : TaskStore) (t : Task)
    (hfresh : ∀ r ∈ s.rows, r.id ≠ s.nextId) :
    ∃ c : Task,
      (TaskContext.create_task s t).1 = some c ∧
      c.id = some s.nextId ∧ c.name = t.name ∧ c.type = t.type ∧
      c.category = t.category ∧ c.status = t.status ∧
      c.priority = t.priority ∧ c.description = t.description ∧
      c.created_by = t.created_by ∧ c.parameters = t.parameters ∧
      c.result = t.result ∧ c.error = t.error ∧
      c.is_recurring = t.is_recurring ∧
      c.recurrence_pattern = t.recurrence_pattern ∧ c.tags = t.tags := by
  have h := get_task_by_id_append_fresh s (TaskContext.taskToRow t s.nextId)
    (s.nextId + 1) (by intro r hr; simpa [TaskContext.taskToRow] using hfresh r hr)
  exact ⟨rowToTask (TaskContext.taskToRow t s.nextId), h, rfl, rfl, rfl, rfl,
    rfl, rfl, rfl, rfl, rfl, rfl, rfl, rfl, rfl, rfl⟩

/-- C6 witness: the round-trip at a concrete task with non-empty
`parameters`, `result` and `tags` in an empty store. -/
theorem create_then_get_roundtrip_witness :
    ∃ c : Task,
      (TaskContext.create_task { rows := [], nextId := 1 } taskFix).1 = some c ∧
      c.id = some 1 ∧ c.name = taskFix.name ∧ c.type = taskFix.type ∧
      c.category = taskFix.category ∧ c.status = taskFix.status ∧
      c.priority = taskFix.priority ∧ c.description = taskFix.description ∧
      c.created_by = taskFix.created_by ∧ c.parameters = taskFix.parameters ∧
      c.result = taskFix.result ∧ c.error = taskFix.error ∧
      c.is_recurring = taskFix.is_recurring ∧
      c.recurrence_pattern = taskFix.recurrence_pattern ∧
      c.tags = taskFix.tags :=
  create_then_get_roundtrip { rows := [], nextId := 1 } taskFix (by simp)

/-! ## Claim C5 — JSON column deserialization on reads -/

@[simp]
theorem except_bind_ok {α β : Type} (a : α) (f : α → Except String β) :
    (Except.ok a >>= f) = f a := rfl

@[simp]
theorem except_bind_error {α β : Type} (e : String) (f : α → Except String β) :
    ((Except.error e : Except String α) >>= f) = Except.error e := rfl

theorem mapM_singleton (f : TaskRow → Except String Task) (r : TaskRow) :
    [r].mapM f = (f r).map (fun t => [t]) := by
  cases h : f r <;> simp [List.mapM, List.mapM.loop, h, Except.map]

theorem rowToTaskStrict_malformed (r : TaskRow)
    (h : (r.parameters.isMalformed || r.result.isMalformed ||
          r.tags.isMalformed) = true) :
    rowToTaskStrict r = .error jsonDecodeError := by
  cases hp : r.parameters <;> cases hq : r.result <;> cases ht : r.tags <;>
    simp [hp, hq, ht, Column.isMalformed] at h <;>
    simp [rowToTaskStrict, decodeRaise, decodeSwallow, rowToTask, hp, hq, ht]

theorem rowToTaskStrict_clean (r : TaskRow)
    (h : (r.parameters.isMalformed || r.result.isMalformed ||
          r.tags.isMalformed) = false) :
    rowToTaskStrict r = .ok (rowToTask r) := by
  cases hp : r.parameters <;> cases hq : r.result <;> cases ht : r.tags <;>
    simp [hp, hq, ht, Column.isMalformed] at h <;>
    simp [rowToTaskStrict, decodeRaise, decodeSwallow, rowToTask, hp, hq, ht]

/-- C5 counterexample: on a stored row whose `tags` column holds malformed
JSON, `get_tasks_by_status` raises the JSON decode error instead of returning
the task with `[]` substituted — its deserialization loop has no
`try/except` — while `get_task_by_id` on the very same row does swallow the
error and substitutes `[]`.  The claim's "every repository read operation
swallows the parse error" is therefore false. -/
theorem json_reads_counterexample :
    TaskContext.get_tasks_by_status { rows := [badRow], nextId := 2 } "pending"
      = Except.error jsonDecodeError ∧
    TaskContext.get_task_by_id { rows := [badRow], nextId := 2 } 1
      = some (rowToTask badRow) ∧
    (rowToTask badRow).tags = [] := by
  refine ⟨?_, rfl, rfl⟩
  rfl

/-- C5 (amended): `get_task_by_id` and `get_all_tasks` substitute `{}` / `[]`
for absent-or-malformed JSON columns (their `json.loads` calls sit in a
`try/except`); `get_tasks_by_status` and `get_tasks_by_category` substitute
the defaults only for absent columns and RAISE the decode error as soon as
any selected row has a malformed column. -/
theorem json_reads_decoders (r : TaskRow) (n : Nat) :
    TaskContext.get_task_by_id { rows := [r], nextId := n } r.id
      = some (rowToTask r) ∧
    TaskContext.get_all_tasks { rows := [r], nextId := n } = [rowToTask r] ∧
    (rowToTask r).parameters = decodeSwallow r.parameters [] ∧
    (rowToTask r).result = decodeSwallow r.result Envelope.empty ∧
    (rowToTask r).tags = decodeSwallow r.tags [] ∧
    ((r.parameters.isMalformed || r.result.isMalformed ||
        r.tags.isMalformed) = true →
      TaskContext.get_tasks_by_status { rows := [r], nextId := n } r.status
          = Except.error jsonDecodeError ∧
      TaskContext.get_tasks_by_category { rows := [r], nextId := n } r.category
          = Except.error jsonDecodeError) ∧
    ((r.parameters.isMalformed || r.result.isMalformed ||
        r.tags.isMalformed) = false →
      TaskContext.get_tasks_by_status { rows := [r], nextId := n } r.status
          = Except.ok [rowToTask r] ∧
      TaskContext.get_tasks_by_category { rows := [r], nextId := n } r.category
          = Except.ok [rowToTask r]) := by
  have hbyid : TaskContext.get_task_by_id { rows := [r], nextId := n } r.id
      = some (rowToTask r) := by
    simp [TaskContext.get_task_by_id, List.find?]
  have hst : TaskContext.get_tasks_by_status { rows := [r], nextId := n } r.status
      = (rowToTaskStrict r).map (fun t => [t]) := by
    show ([r].filter (fun x => x.status = r.status)).mapM rowToTaskStrict = _
    have hfil : ([r].filter (fun x => x.status = r.status)) = [r] := by
      simp [List.filter]
    rw [hfil, mapM_singleton]
  have hct : TaskContext.get_tasks_by_category { rows := [r], nextId := n } r.category
      = (rowToTaskStrict r).map (fun t => [t]) := by
    show ([r].filter (fun x => x.category = r.category)).mapM rowToTaskStrict = _
    have hfil : ([r].filter (fun x => x.category = r.category)) = [r] := by
      simp [List.filter]
    rw [hfil, mapM_singleton]
  refine ⟨hbyid, rfl, rfl, rfl, rfl, ?_, ?_⟩
  · intro h
    rw [hst, hct, rowToTaskStrict_malformed r h]
    exact ⟨rfl, rfl⟩
  · intro h
    rw [hst, hct, rowToTaskStrict_clean r h]
    exact ⟨rfl, rfl⟩

/-- C5 amended witness: the malformed-`tags` row makes the status query
raise while the clean fixture row decodes. -/
theorem json_reads_decoders_witness :
    TaskContext.get_tasks_by_status { rows := [badRow], nextId := 2 }
        badRow.status = Except.error jsonDecodeError ∧
    TaskContext.get_task_by_id { rows := [badRow], nextId := 2 } badRow.id
      = some (rowToTask badRow) :=
  ⟨((json_reads_decoders badRow 2).2.2.2.2.2.1 (by decide)).1,
   (json_reads_decoders badRow 2).1⟩

/-! ## Claim C8 — project task membership -/

theorem nodup_append_singleton {l : List Nat} {a : Nat} (h : l.Nodup)
    (ha : a ∉ l) : (l ++ [a]).Nodup := by
  rw [List.nodup_append]
  refine ⟨h, List.nodup_singleton a, ?_⟩
  intro x hx hx'
  simp at hx'
  subst hx'
  exact ha hx

theorem proj_tasks_nodup_of_inv (s : ProjectStore) (pid : Nat) (proj : Project)
    (hinv : ProjectContext.TaskListsNodup s)
    (hg : ProjectContext.get_project_by_id s pid = some proj) :
    proj.tasks.Nodup := by
  have hg' : (s.rows.find? (fun r => r.id = pid)).map rowToProject = some proj := hg
  obtain ⟨r0, hfind, hproj⟩ := Option.map_eq_some'.mp hg'
  have hmem := List.mem_of_find?_eq_some hfind
  have := hinv r0 hmem
  rw [← hproj]
  exact this

theorem add_task_absent (now : DateTime) (s : ProjectStore) (pid tid : Nat)
    (h : ProjectContext.get_project_by_id s pid = none) :
    ProjectContext.add_task_to_project now s pid tid = .ok (false, s) := by
  simp [ProjectContext.add_task_to_project, h]

theorem add_task_member (now : DateTime) (s : ProjectStore) (pid tid : Nat)
    (proj : Project) (h : ProjectContext.get_project_by_id s pid = some proj)
    (hmem : tid ∈ proj.tasks) :
    ProjectContext.add_task_to_project now s pid tid = .ok (false, s) := by
  simp [ProjectContext.add_task_to_project, h, hmem]

theorem proj_id_of_get (s : ProjectStore) (pid : Nat) (proj : Project)
    (h : ProjectContext.get_project_by_id s pid = some proj) :
    proj.id = some pid := by
  have h' : (s.rows.find? (fun r => r.id = pid)).map rowToProject = some proj := h
  obtain ⟨r0, hfind, hproj⟩ := Option.map_eq_some'.mp h'
  have hid : r0.id = pid := by simpa using List.find?_some hfind
  rw [← hproj, rowToProject, hid]

theorem add_task_new (now : DateTime) (s : ProjectStore) (pid tid : Nat)
    (proj : Project) (h : ProjectContext.get_project_by_id s pid = some proj)
    (hmem : tid ∉ proj.tasks) (h0 : pid ≠ 0) :
    ProjectContext.add_task_to_project now s pid tid =
      .ok (true, ProjectContext.updatedProjectStore
        { proj with tasks := proj.tasks ++ [tid], updated_at := some now } pid s) := by
  have hid : proj.id = some pid := proj_id_of_get s pid proj h
  unfold ProjectContext.add_task_to_project
  rw [h]
  simp only [hmem, if_neg (by exact hmem)]
  unfold ProjectContext.update_project
  have hfalsy : TaskContext.pyFalsyId
      ({ proj with tasks := proj.tasks ++ [tid] } : Project).id = false := by
    show TaskContext.pyFalsyId proj.id = false
    rw [hid]
    exact pyFalsyId_some h0
  rw [hfalsy]
  simp only [Bool.false_eq_true, if_false]
  have hgd : ({ proj with tasks := proj.tasks ++ [tid] } : Project).id.getD 0 = pid := by
    show proj.id.getD 0 = pid
    rw [hid]
    rfl
  rw [hgd]

theorem add_task_zero (now : DateTime) (s : ProjectStore) (tid : Nat)
    (proj : Project) (h : ProjectContext.get_project_by_id s 0 = some proj)
    (hmem : tid ∉ proj.tasks) :
    ProjectContext.add_task_to_project now s 0 tid =
      .error "Project ID is required for update operation" := by
  have hid : proj.id = some 0 := proj_id_of_get s 0 proj h
  unfold ProjectContext.add_task_to_project
  rw [h]
  simp only [hmem, if_neg (by exact hmem)]
  unfold ProjectContext.update_project
  have hfalsy : TaskContext.pyFalsyId
      ({ proj with tasks := proj.tasks ++ [tid] } : Project).id = true := by
    show TaskContext.pyFalsyId proj.id = true
    rw [hid]
    rfl
  rw [hfalsy]
  simp

theorem updatedProjectStore_nodup (p' : Project) (pid : Nat) (s : ProjectStore)
    (hinv : ProjectContext.TaskListsNodup s) (hp : p'.tasks.Nodup) :
    ProjectContext.TaskListsNodup
      (ProjectContext.updatedProjectStore p' pid s) := by
  intro r hr
  simp only [ProjectContext.updatedProjectStore, List.mem_map] at hr
  obtain ⟨orig, ho, hor⟩ := hr
  by_cases h : orig.id = pid
  · rw [if_pos h] at hor
    rw [← hor]
    simpa [ProjectContext.applyProjectUpdate, decodeSwallow] using hp
  · rw [if_neg h] at hor
    rw [← hor]
    exact hinv orig ho

/-- C8: `add_task_to_project` returns `False` and leaves the store unchanged
when the project is absent or the id is already a member; otherwise it
appends the id and returns `True`; consequently a store whose projects all
have duplicate-free task-id lists keeps that invariant across any sequence
of add calls (each id appears at most once). -/
theorem add_task_idempotent (now : DateTime) (s : ProjectStore) (pid tid : Nat) :
    (ProjectContext.get_project_by_id s pid = none →
      ProjectContext.add_task_to_project now s pid tid = .ok (false, s)) ∧
    (∀ proj, ProjectContext.get_project_by_id s pid = some proj →
      tid ∈ proj.tasks →
      ProjectContext.add_task_to_project now s pid tid = .ok (false, s)) ∧
    (∀ proj, ProjectContext.get_project_by_id s pid = some proj →
      tid ∉ proj.tasks → pid ≠ 0 →
      ∃ s', ProjectContext.add_task_to_project now s pid tid = .ok (true, s') ∧
        ProjectContext.get_project_by_id s' pid =
          some { proj with tasks := proj.tasks ++ [tid], updated_at := some now }) ∧
    (∀ ops : List (Nat × Nat), ProjectContext.TaskListsNodup s →
      ProjectContext.TaskListsNodup (ProjectContext.applyAdds now ops s)) := by
  refine ⟨add_task_absent now s pid tid,
    fun proj h hmem => add_task_member now s pid tid proj h hmem, ?_, ?_⟩
  · intro proj h hmem h0
    refine ⟨_, add_task_new now s pid tid proj h hmem h0, ?_⟩
    have h' : (s.rows.find? (fun r => r.id = pid)).map rowToProject = some proj := h
    obtain ⟨r0, hfind, hproj⟩ := Option.map_eq_some'.mp h'
    have hid : r0.id = pid := by simpa using List.find?_some hfind
    have h1 := find?_map_ite (fun r : ProjectRow => r.id)
      (ProjectContext.applyProjectUpdate
        { { proj with tasks := proj.tasks ++ [tid] } with updated_at := some now })
      (fun _ => rfl) pid s.rows
    rw [hfind] at h1
    have h2 : (ProjectContext.updatedProjectStore
        { proj with tasks := proj.tasks ++ [tid], updated_at := some now }
        pid s).rows.find? (fun r => r.id = pid)
        = some (ProjectContext.applyProjectUpdate
            { proj with tasks := proj.tasks ++ [tid], updated_at := some now } r0) := by
      simpa [ProjectContext.updatedProjectStore, hid] using h1
    show ((ProjectContext.updatedProjectStore
        { proj with tasks := proj.tasks ++ [tid], updated_at := some now }
        pid s).rows.find? (fun r => r.id = pid)).map rowToProject = _
    rw [h2]
    rw [← hproj]
    rfl
  · intro ops
    induction ops generalizing s with
    | nil => intro hinv; exact hinv
    | cons op rest ih =>
      intro hinv
      obtain ⟨pid', tid'⟩ := op
      rw [ProjectContext.applyAdds]
      cases hg : ProjectContext.get_project_by_id s pid' with
      | none =>
        rw [add_task_absent now s pid' tid' hg]
        exact ih s hinv
      | some proj =>
        by_cases hmem : tid' ∈ proj.tasks
        · rw [add_task_member now s pid' tid' proj hg hmem]
          exact ih s hinv
        · by_cases h0 : pid' = 0
          · subst h0
            rw [add_task_zero now s tid' proj hg hmem]
            exact hinv
          · rw [add_task_new now s pid' tid' proj hg hmem h0]
            refine ih _ (updatedProjectStore_nodup _ _ _ hinv ?_)
            exact nodup_append_singleton
              (proj_tasks_nodup_of_inv s pid' proj hinv hg) hmem

/-- C8 witness: adding task id `5` twice to the concrete one-project store
leaves a store that still satisfies the duplicate-free invariant. -/
theorem add_task_idempotent_witness :
    ProjectContext.TaskListsNodup
      (ProjectContext.applyAdds 4 [(1, 5), (1, 5)] projStoreFix) :=
  (add_task_idempotent 4 projStoreFix 1 5).2.2.2 [(1, 5), (1, 5)]
    (by intro r hr; simp [projStoreFix] at hr; subst hr; simp [decodeSwallow])

/-! ## Claim C7 — `merge_pdfs` input validation -/

theorem firstBadInput_append_good (fs : PdfService.FileSys) (pre : List String)
    (hpre : ∀ q ∈ pre, fs.existing.contains q = true ∧
      PdfService.endsWithPdfLower q = true) :
    ∀ l, PdfService.firstBadInput fs (pre ++ l) =
      PdfService.firstBadInput fs l := by
  induction pre with
  | nil => intro l; rfl
  | cons p rest ih =>
    intro l
    have hp := hpre p (by simp)
    have htail : ∀ q ∈ rest, fs.existing.contains q = true ∧
        PdfService.endsWithPdfLower q = true :=
      fun q hq => hpre q (by simp [hq])
    simp only [List.cons_append, PdfService.firstBadInput, hp.1, hp.2]
    simpa using ih htail l

/-- C7: when some input path does not exist or does not end in `.pdf`,
`merge_pdfs` returns an error envelope whose message names the first such
path — "neexistuje" when the path is missing, "není PDF" when only the
extension is wrong — and the filesystem is untouched: the validation loop
over every input runs before the merger is even created, so no output is
written. -/
theorem merge_pdfs_validation (fs : PdfService.FileSys) (out : String)
    (now : DateTime) (p : String) (pre suf : List String)
    (hpre : ∀ q ∈ pre, fs.existing.contains q = true ∧
      PdfService.endsWithPdfLower q = true)
    (hbad : fs.existing.contains p = false ∨
      PdfService.endsWithPdfLower p = false) :
    (PdfService.merge_pdfs fs (pre ++ p :: suf) out now).1.status = "error" ∧
    (PdfService.merge_pdfs fs (pre ++ p :: suf) out now).1.message =
      (if fs.existing.contains p = false then "Soubor " ++ p ++ " neexistuje"
       else "Soubor " ++ p ++ " není PDF") ∧
    (PdfService.merge_pdfs fs (pre ++ p :: suf) out now).2 = fs := by
  have hfb : PdfService.firstBadInput fs (pre ++ p :: suf) =
      some (p, if fs.existing.contains p = false
               then "Soubor " ++ p ++ " neexistuje"
               else "Soubor " ++ p ++ " není PDF") := by
    rw [firstBadInput_append_good fs pre hpre]
    by_cases hc : fs.existing.contains p = true
    · have hb2 : PdfService.endsWithPdfLower p = false := by
        rcases hbad with hb | hb
        · rw [hc] at hb; cases hb
        · exact hb
      have hmem : p ∈ fs.existing := by simpa using hc
      simp [PdfService.firstBadInput, hc, hmem, hb2]
    · have hc' : fs.existing.contains p = false := by
        cases h' : fs.existing.contains p
        · rfl
        · exact absurd h' hc
      have hmem : ¬ p ∈ fs.existing := by simpa using hc'
      simp [PdfService.firstBadInput, hc', hmem]
  refine ⟨?_, ?_, ?_⟩ <;> simp [PdfService.merge_pdfs, hfb]

/-- C7 witness: merging `["a.pdf", "b.pdf"]` when only `a.pdf` exists yields
an error envelope naming `b.pdf` and performs no write. -/
theorem merge_pdfs_validation_witness :
    (PdfService.merge_pdfs fsFix ["a.pdf", "b.pdf"] "out.pdf" 7).1.status
      = "error" ∧
    (PdfService.merge_pdfs fsFix ["a.pdf", "b.pdf"] "out.pdf" 7).1.message
      = "Soubor b.pdf neexistuje" ∧
    (PdfService.merge_pdfs fsFix ["a.pdf", "b.pdf"] "out.pdf" 7).2 = fsFix := by
  have h := merge_pdfs_validation fsFix "out.pdf" 7 "b.pdf" ["a.pdf"] []
    (by intro q hq
        simp at hq
        subst hq
        exact ⟨by decide, by decide⟩)
    (Or.inl (by decide))
  exact ⟨h.1, by simpa using h.2.1, h.2.2⟩

/-! ## Claim C9 — `chat_with_project` semantic fallback -/

/-- C9: when the semantic-context service is unreachable or its HTTP call
errors, the client hands back the empty-chunks fallback dict, so
`chat_with_project` builds its prompt around the "no relevant context"
placeholder and still returns a success envelope carrying the response text,
a context-fragment count of `0` and a timestamp; and when the LLM call
itself raises, the surrounding `except` turns it into an error envelope
instead of propagating the exception. -/
theorem chat_fallback (provider : String) (llm : String → Except String String)
    (f : LLM.FetchOutcome) (message : String) (now : DateTime)
    (hprov : provider = "openai" ∨ provider = "anthropic")
    (hfail : f = .unreachable ∨ ∃ e, f = .httpError e) :
    (∀ txt, llm (LLM.createChatPrompt message LLM.noContextForQuery) = .ok txt →
      LLM.chat_with_project provider llm f message now =
        { statusF := "success", messageF := "Odpověď byla úspěšně vygenerována",
          response := some txt, context_chunks := some 0, timestamp := now }) ∧
    (∀ e, llm (LLM.createChatPrompt message LLM.noContextForQuery) = .error e →
      LLM.chat_with_project provider llm f message now =
        { statusF := "error",
          messageF := "Chyba při generování odpovědi: " ++ e,
          response := none, context_chunks := none, timestamp := now }) := by
  have hctx : LLM.get_project_context f = {} := by
    rcases hfail with h | ⟨e, h⟩ <;> subst h <;> rfl
  have hne : ¬ provider = "none" := by
    rcases hprov with h | h <;> subst h <;> decide
  constructor <;> intro x hx <;>
    simp [LLM.chat_with_project, hctx, hne, hprov,
      LLM.prepareContextFromChunks, hx]

/-- C9 witness: a concrete unreachable-service chat still succeeds with the
fallback context. -/
theorem chat_fallback_witness :
    LLM.chat_with_project "openai" (fun _ => .ok "hi") .unreachable "q" 3 =
      { statusF := "success", messageF := "Odpověď byla úspěšně vygenerována",
        response := some "hi", context_chunks := some 0, timestamp := 3 } :=
  (chat_fallback "openai" (fun _ => .ok "hi") .unreachable "q" 3
    (Or.inl rfl) (Or.inl rfl)).1 "hi" rfl

/-! ## Dispatcher lemmas (claims C1–C4) -/

theorem run_task_unfold (now : DateTime) (s : TaskStore) (tid : Nat)
    (h : HandlerOracle) (pf2 pf3 : Option String) (r0 : TaskRow)
    (hfind : s.rows.find? (fun r => r.id = tid) = some r0) (h0 : tid ≠ 0) :
    run_task now s tid h none pf2 pf3 =
      finishRun now
        (TaskContext.updatedStore
          { rowToTask r0 with status := "running", updated_at := some now } tid s)
        { rowToTask r0 with status := "running" }
        (dispatchHandler r0.category r0.type h) pf2 pf3 := by
  have hrid : r0.id = tid := by simpa using List.find?_some hfind
  have hget : TaskContext.get_task_by_id s tid = some (rowToTask r0) := by
    simp [TaskContext.get_task_by_id, hfind]
  have hid1 : ({ rowToTask r0 with status := "running" } : Task).id = some tid := by
    show some r0.id = some tid
    rw [hrid]
  have hup := update_task_ok now s { rowToTask r0 with status := "running" }
    tid hid1 h0
  unfold run_task
  rw [hget]
  simp only [updateWithFail, hup]
  rfl

theorem finishRun_raise (now : DateTime) (s1 : TaskStore) (task1 : Task)
    (e : String) (pf2 pf3 : Option String) :
    finishRun now s1 task1 (.error e) pf2 pf3 = exceptPath now s1 task1 e pf3 :=
  rfl

theorem finishRun_list (now : DateTime) (s1 : TaskStore) (task1 : Task)
    (xs : List Envelope) (pf2 pf3 : Option String) :
    finishRun now s1 task1 (.ok (.pyList xs)) pf2 pf3 =
      exceptPath now s1 task1 listGetAttrError pf3 :=
  rfl

theorem exceptPath_stored (now : DateTime) (s1 : TaskStore) (cur : Task)
    (e : String) (tid : Nat) (hid : cur.id = some tid) (h0 : tid ≠ 0)
    (r1 : TaskRow) (hfind : s1.rows.find? (fun r => r.id = tid) = some r1) :
    (exceptPath now s1 cur e none).1 = .execFailed e ∧
    TaskContext.get_task_by_id (exceptPath now s1 cur e none).2 tid =
      some (rowToTask (TaskContext.applyUpdate
        { cur with
          status := "failed"
          error := some e
          completed_at := some now
          updated_at := some now } r1)) := by
  have hup := update_task_ok now s1
    { cur with status := "failed", error := some e, completed_at := some now }
    tid hid h0
  unfold exceptPath
  simp only [updateWithFail, hup]
  refine ⟨trivial, ?_⟩
  exact (get_updatedStore_eq
      { cur with
        status := "failed"
        error := some e
        completed_at := some now
        updated_at := some now } tid s1 r1 hfind).2

theorem exceptPath_persist_fail (now : DateTime) (s1 : TaskStore) (cur : Task)
    (e u : String) (tid : Nat) (hid : cur.id = some tid) (h0 : tid ≠ 0) :
    exceptPath now s1 cur e (some u) = (.execAndPersistFailed e u, s1) := by
  have hup := update_task_ok now s1
    { cur with status := "failed", error := some e, completed_at := some now }
    tid hid h0
  unfold exceptPath
  simp only [updateWithFail, hup]

theorem finishRun_envelope (now : DateTime) (s1 : TaskStore) (task1 : Task)
    (env : Envelope) (tid : Nat) (hid : task1.id = some tid) (h0 : tid ≠ 0)
    (r1 : TaskRow) (hfind : s1.rows.find? (fun r => r.id = tid) = some r1)
    (dres : Except String PyResult)
    (hdres : dres = .ok (.pyDict env) ∨
      (dres = .ok .pyNone ∧ env = defaultEnvelope)) :
    ∃ t' : Task,
      (finishRun now s1 task1 dres none none).1 = .ok t' ∧
      TaskContext.get_task_by_id (finishRun now s1 task1 dres none none).2 tid
        = some t' ∧
      t'.status = (if env.statusF = some "success" then "completed" else "failed") ∧
      t'.result = env ∧
      t'.completed_at = some now ∧
      t'.error = (if env.statusF = some "error" then env.messageF else none) := by
  have hup := update_task_ok now s1
    { task1 with
      status := (if env.statusF = some "success" then "completed" else "failed")
      result := env
      completed_at := some now
      error := (if env.statusF = some "error" then env.messageF else none) }
    tid hid h0
  have hget := (get_updatedStore_eq
    { task1 with
      status := (if env.statusF = some "success" then "completed" else "failed")
      result := env
      completed_at := some now
      error := (if env.statusF = some "error" then env.messageF else none)
      updated_at := some now } tid s1 r1 hfind).2
  refine ⟨rowToTask (TaskContext.applyUpdate
    { task1 with
      status := (if env.statusF = some "success" then "completed" else "failed")
      result := env
      completed_at := some now
      error := (if env.statusF = some "error" then env.messageF else none)
      updated_at := some now } r1), ?_, ?_, rfl, rfl, rfl, rfl⟩ <;>
    rcases hdres with hdres | ⟨hdres, henv⟩ <;>
      (try subst henv) <;> subst hdres <;>
      simp only [finishRun, normalizeResult, updateWithFail, hup, hget]

theorem dispatch_no_handler (cat ty : String) (h : HandlerOracle)
    (hnh : hasHandler cat ty = false) :
    dispatchHandler cat ty h = .ok .pyNone := by
  unfold dispatchHandler
  split_ifs <;> first
    | rfl
    | (subst_vars; exact absurd hnh (by decide))

theorem mapDict_wf {x : Except String Envelope} {env : Envelope}
    (hx : ∀ e, x = .ok e → EnvelopeWF e)
    (hd : x.map PyResult.pyDict = .ok (.pyDict env)) : EnvelopeWF env := by
  cases hx' : x with
  | error e => rw [hx'] at hd; simp [Except.map] at hd
  | ok e =>
    rw [hx'] at hd
    simp [Except.map] at hd
    rw [← hd]
    exact hx e hx'

theorem mapList_not_dict {x : Except String (List Envelope)} {env : Envelope}
    (hd : x.map PyResult.pyList = .ok (.pyDict env)) : False := by
  cases hx : x <;> rw [hx] at hd <;> simp [Except.map] at hd

theorem dispatch_dict_wf (cat ty : String) (h : HandlerOracle)
    (hwf : h.WellFormed) (env : Envelope)
    (hd : dispatchHandler cat ty h = .ok (.pyDict env)) : EnvelopeWF env := by
  obtain ⟨w1, w2, w3, w4, w5, w6, w7⟩ := hwf
  unfold dispatchHandler at hd
  split_ifs at hd <;> first
    | exact mapDict_wf w1 hd
    | exact mapDict_wf w2 hd
    | exact mapDict_wf w3 hd
    | exact mapDict_wf w4 hd
    | exact mapDict_wf w5 hd
    | exact mapDict_wf w6 hd
    | exact mapDict_wf w7 hd
    | exact (mapList_not_dict hd).elim
    | simp at hd

/-! ## Claim C1 — terminal state after `run_task` -/

/-- C1: with the task present (repository ids are ≥ 1), reliable persistence,
and handlers honouring the §4.2 envelope contract, after `run_task` returns
the stored task's status is `completed` or `failed`, its `completed_at` is
stamped with the dispatch time, and `failed` implies a non-null `error`. -/
theorem run_task_terminal (now : DateTime) (s : TaskStore) (tid : Nat)
    (h : HandlerOracle) (r0 : TaskRow)
    (hfind : s.rows.find? (fun r => r.id = tid) = some r0)
    (h0 : tid ≠ 0) (hwf : h.WellFormed) :
    ∃ t' : Task,
      TaskContext.get_task_by_id (run_task now s tid h none none none).2 tid
        = some t' ∧
      (t'.status = "completed" ∨ t'.status = "failed") ∧
      t'.completed_at = some now ∧
      (t'.status = "failed" → t'.error ≠ none) := by
  have hrid : r0.id = tid := by simpa using List.find?_some hfind
  have hid1 : ({ rowToTask r0 with status := "running" } : Task).id = some tid := by
    show some r0.id = some tid
    rw [hrid]
  have hfind1 := (get_updatedStore_eq
    { rowToTask r0 with status := "running", updated_at := some now }
    tid s r0 hfind).1
  rw [run_task_unfold now s tid h none none r0 hfind h0]
  cases hd : dispatchHandler r0.category r0.type h with
  | error e =>
    rw [finishRun_raise]
    have hex := exceptPath_stored now _ _ e tid hid1 h0 _ hfind1
    exact ⟨_, hex.2, Or.inr rfl, rfl, fun _ hnone => Option.noConfusion hnone⟩
  | ok r =>
    cases r with
    | pyNone =>
      obtain ⟨t', hresp, hget, hst, hres, hcomp, herr⟩ :=
        finishRun_envelope now _ _ defaultEnvelope tid hid1 h0 _ hfind1 _
          (Or.inr ⟨rfl, rfl⟩)
      refine ⟨t', hget, ?_, hcomp, ?_⟩
      · rw [hst]
        exact Or.inl (by simp [defaultEnvelope])
      · intro hfail
        rw [hst] at hfail
        simp [defaultEnvelope] at hfail
    | pyList xs =>
      rw [finishRun_list]
      have hex := exceptPath_stored now _ _ listGetAttrError tid hid1 h0 _ hfind1
      exact ⟨_, hex.2, Or.inr rfl, rfl, fun _ hnone => Option.noConfusion hnone⟩
    | pyDict env =>
      have hwfe := dispatch_dict_wf r0.category r0.type h hwf env hd
      obtain ⟨t', hresp, hget, hst, hres, hcomp, herr⟩ :=
        finishRun_envelope now _ _ env tid hid1 h0 _ hfind1 _ (Or.inl rfl)
      refine ⟨t', hget, ?_, hcomp, ?_⟩
      · rw [hst]
        by_cases hss : env.statusF = some "success" <;> simp [hss]
      · intro hfail
        rw [herr]
        rcases hwfe.1 with hsf | hsf
        · rw [hst, if_pos hsf] at hfail
          exact absurd hfail (by decide)
        · rw [if_pos hsf]
          exact hwfe.2

theorem hOkFix_wf : hOkFix.WellFormed := by
  refine ⟨?_, ?_, ?_, ?_, ?_, ?_, ?_⟩ <;>
    (intro e he; injection he with he; rw [← he];
      exact ⟨Or.inl rfl, fun hn => Option.noConfusion hn⟩)

/-- C1 witness: a concrete send-email run where the handler succeeds. -/
theorem run_task_terminal_witness :
    ∃ t' : Task,
      TaskContext.get_task_by_id
        (run_task 4 (storeFix "email" "send_email") 1 hOkFix none none none).2 1
        = some t' ∧
      (t'.status = "completed" ∨ t'.status = "failed") ∧
      t'.completed_at = some 4 ∧
      (t'.status = "failed" → t'.error ≠ none) :=
  run_task_terminal 4 (storeFix "email" "send_email") 1 hOkFix
    (rowFix "email" "send_email") rfl (by decide) hOkFix_wf

/-! ## Claim C2 — unmatched (category, type) is a no-op success -/

/-- C2: when `(category, type)` matches none of the eight handlers, the run
completes with `status = completed`, the stored `result` being the default
success envelope (`status "success"` and the generic "task completed, no
result" message), `error = None`, and the caller gets the 200 response — not
an error and not `failed`. -/
theorem run_task_no_handler (now : DateTime) (s : TaskStore) (tid : Nat)
    (h : HandlerOracle) (r0 : TaskRow)
    (hfind : s.rows.find? (fun r => r.id = tid) = some r0)
    (h0 : tid ≠ 0)
    (hnh : hasHandler r0.category r0.type = false) :
    ∃ t' : Task,
      (run_task now s tid h none none none).1 = .ok t' ∧
      TaskContext.get_task_by_id (run_task now s tid h none none none).2 tid
        = some t' ∧
      t'.status = "completed" ∧
      t'.result = defaultEnvelope ∧
      t'.error = none ∧
      defaultEnvelope.statusF = some "success" ∧
      defaultEnvelope.messageF =
        some "Úloha byla dokončena, ale nevrátila žádný výsledek." := by
  have hrid : r0.id = tid := by simpa using List.find?_some hfind
  have hid1 : ({ rowToTask r0 with status := "running" } : Task).id = some tid := by
    show some r0.id = some tid
    rw [hrid]
  have hfind1 := (get_updatedStore_eq
    { rowToTask r0 with status := "running", updated_at := some now }
    tid s r0 hfind).1
  rw [run_task_unfold now s tid h none none r0 hfind h0,
    dispatch_no_handler r0.category r0.type h hnh]
  obtain ⟨t', hresp, hget, hst, hres, hcomp, herr⟩ :=
    finishRun_envelope now _ _ defaultEnvelope tid hid1 h0 _ hfind1 _
      (Or.inr ⟨rfl, rfl⟩)
  refine ⟨t', hresp, hget, ?_, hres, ?_, rfl, rfl⟩
  · rw [hst]
    simp [defaultEnvelope]
  · rw [herr]
    simp [defaultEnvelope]

/-- C2 witness: a concrete run of a task with an unrecognized category. -/
theorem run_task_no_handler_witness :
    ∃ t' : Task,
      (run_task 4 (storeFix "misc" "noop") 1 hOkFix none none none).1 = .ok t' ∧
      TaskContext.get_task_by_id
        (run_task 4 (storeFix "misc" "noop") 1 hOkFix none none none).2 1
        = some t' ∧
      t'.status = "completed" ∧
      t'.result = defaultEnvelope ∧
      t'.error = none ∧
      defaultEnvelope.statusF = some "success" ∧
      defaultEnvelope.messageF =
        some "Úloha byla dokončena, ale nevrátila žádný výsledek." :=
  run_task_no_handler 4 (storeFix "misc" "noop") 1 hOkFix
    (rowFix "misc" "noop") rfl (by decide) (by decide)

/-! ## Claim C3 — `check_inbox` always fails through the dispatcher -/

/-- C3: an `email.check_inbox` task whose IMAP fetch succeeds still ends
`failed`: the handler hands back a raw Python list, the dispatcher's
`result.get('status')` raises `AttributeError ('list' object has no
attribute 'get')`, and the except path records the task as `failed` with
exactly that exception text as its `error`. -/
theorem run_task_check_inbox_fails (now : DateTime) (s : TaskStore) (tid : Nat)
    (h : HandlerOracle) (r0 : TaskRow) (msgs : List Envelope)
    (hfind : s.rows.find? (fun r => r.id = tid) = some r0)
    (h0 : tid ≠ 0)
    (hcat : r0.category = "email") (hty : r0.type = "check_inbox")
    (hfetch : h.check_inbox = .ok msgs) :
    (run_task now s tid h none none none).1 = .execFailed listGetAttrError ∧
    ∃ t' : Task,
      TaskContext.get_task_by_id (run_task now s tid h none none none).2 tid
        = some t' ∧
      t'.status = "failed" ∧
      t'.error = some listGetAttrError ∧
      t'.completed_at = some now := by
  have hrid : r0.id = tid := by simpa using List.find?_some hfind
  have hid1 : ({ rowToTask r0 with status := "running" } : Task).id = some tid := by
    show some r0.id = some tid
    rw [hrid]
  have hfind1 := (get_updatedStore_eq
    { rowToTask r0 with status := "running", updated_at := some now }
    tid s r0 hfind).1
  have hdisp : dispatchHandler r0.category r0.type h = .ok (.pyList msgs) := by
    rw [hcat, hty]
    simp [dispatchHandler, hfetch, Except.map]
  rw [run_task_unfold now s tid h none none r0 hfind h0, hdisp, finishRun_list]
  have hex := exceptPath_stored now _ _ listGetAttrError tid hid1 h0 _ hfind1
  exact ⟨hex.1, _, hex.2, rfl, rfl, rfl⟩

/-- C3 witness: a concrete `check_inbox` run whose fetch returns the empty
message list. -/
theorem run_task_check_inbox_fails_witness :
    (run_task 4 (storeFix "email" "check_inbox") 1 hOkFix none none none).1
      = .execFailed listGetAttrError ∧
    ∃ t' : Task,
      TaskContext.get_task_by_id
        (run_task 4 (storeFix "email" "check_inbox") 1 hOkFix none none none).2 1
        = some t' ∧
      t'.status = "failed" ∧
      t'.error = some listGetAttrError ∧
      t'.completed_at = some 4 :=
  run_task_check_inbox_fails 4 (storeFix "email" "check_inbox") 1 hOkFix
    (rowFix "email" "check_inbox") [] rfl (by decide) rfl rfl rfl

/-! ## Claim C4 — exceptions escaping handlers -/

/-- C4: an exception escaping the handler makes the except path force
`status = failed`, `error = str(exception)`, `completed_at = now` and persist
the task; and when that persistence attempt itself raises, the 500 response
reports BOTH the original execution failure and the persistence failure in
one message. -/
theorem run_task_handler_exception (now : DateTime) (s : TaskStore) (tid : Nat)
    (h : HandlerOracle) (r0 : TaskRow) (e : String)
    (hfind : s.rows.find? (fun r => r.id = tid) = some r0)
    (h0 : tid ≠ 0)
    (hraise : dispatchHandler r0.category r0.type h = .error e) :
    ((run_task now s tid h none none none).1 = .execFailed e ∧
     ∃ t' : Task,
       TaskContext.get_task_by_id (run_task now s tid h none none none).2 tid
         = some t' ∧
       t'.status = "failed" ∧ t'.error = some e ∧
       t'.completed_at = some now) ∧
    (∀ u : String,
      (run_task now s tid h none none (some u)).1 = .execAndPersistFailed e u ∧
      ((run_task now s tid h none none (some u)).1).message =
        some ("Chyba při provádění úlohy: " ++ e ++
          ". Chyba při aktualizaci úlohy: " ++ u)) := by
  have hrid : r0.id = tid := by simpa using List.find?_some hfind
  have hid1 : ({ rowToTask r0 with status := "running" } : Task).id = some tid := by
    show some r0.id = some tid
    rw [hrid]
  have hfind1 := (get_updatedStore_eq
    { rowToTask r0 with status := "running", updated_at := some now }
    tid s r0 hfind).1
  constructor
  · rw [run_task_unfold now s tid h none none r0 hfind h0, hraise, finishRun_raise]
    have hex := exceptPath_stored now _ _ e tid hid1 h0 _ hfind1
    exact ⟨hex.1, _, hex.2, rfl, rfl, rfl⟩
  · intro u
    rw [run_task_unfold now s tid h none (some u) r0 hfind h0, hraise,
      finishRun_raise, exceptPath_persist_fail now _ _ e u tid hid1 h0]
    exact ⟨rfl, rfl⟩

/-- C4 witness: a concrete run whose handler raises `"boom"`, once with the
persist succeeding and once with it failing with `"db down"`. -/
theorem run_task_handler_exception_witness :
    ((run_task 4 (storeFix "email" "send_email") 1 hRaiseFix none none none).1
        = .execFailed "boom" ∧
     ∃ t' : Task,
       TaskContext.get_task_by_id
         (run_task 4 (storeFix "email" "send_email") 1 hRaiseFix
           none none none).2 1 = some t' ∧
       t'.status = "failed" ∧ t'.error = some "boom" ∧
       t'.completed_at = some 4) ∧
    ((run_task 4 (storeFix "email" "send_email") 1 hRaiseFix
        none none (some "db down")).1 = .execAndPersistFailed "boom" "db down" ∧
     ((run_task 4 (storeFix "email" "send_email") 1 hRaiseFix
        none none (some "db down")).1).message =
       some ("Chyba při provádění úlohy: " ++ "boom" ++
         ". Chyba při aktualizaci úlohy: " ++ "db down")) := by
  have h := run_task_handler_exception 4 (storeFix "email" "send_email") 1
    hRaiseFix (rowFix "email" "send_email") "boom" rfl (by decide) rfl
  exact ⟨h.1, h.2 "db down"⟩

end OfficeAuto
